import Mathlib

/-!
Verification of the pump.fun sniper bot core, shallowly embedded in Lean 4.

Sources embedded here: src/bot.py (TradingStats, listen_new_tokens,
should_snipe, manage_position, the sniper_main consumer loop) and
src/blockchain.py (PumpFunExecutor.calculate_dynamic_jito_tip,
PumpFunExecutor.simulate_and_send).

Modelling conventions: Python floats are modelled over ℚ; awaited external
calls (RPC, HTTP, database) are modelled as explicit environment records
holding the value each call would return; the side effects of a code path are
recorded as an explicit action trace so that ordering and absence of calls can
be stated. Python dict lookups with defaults are resolved to fields of the
environment records.
-/

/-- Cumulative fee budget tracker, from class TradingStats
(src/bot.py lines 71-87). Lamport amounts are integers in the source;
capital (SOL) and the limit fraction are floats, modelled over ℚ. -/
structure TradingStats where
  initial_capital : ℚ
  total_fees_lamports : ℕ
  limit_pct : ℚ
deriving Repr, DecidableEq

/-- TradingStats.add_fee (src/bot.py lines 77-79): accumulate a recorded fee. -/
def TradingStats.add_fee (s : TradingStats) (fee_lamports : ℕ) : TradingStats :=
  { s with total_fees_lamports := s.total_fees_lamports + fee_lamports }

/-- TradingStats.is_budget_exceeded (src/bot.py lines 81-87):
fee_sol = total_fees_lamports / 1e9; exceeded when fee_sol >= limit
where limit = initial_capital * limit_pct. -/
def TradingStats.is_budget_exceeded (s : TradingStats) : Bool :=
  decide (s.initial_capital * s.limit_pct ≤ (s.total_fees_lamports : ℚ) / 1000000000)

/-- The budget predicate under its spec name: checkBudget is true exactly when
the budget is not exceeded (the negation of TradingStats.is_budget_exceeded). -/
def checkBudget (s : TradingStats) : Bool := !s.is_budget_exceeded

/-- Python int() applied to a float truncates toward zero. -/
def pyInt (x : ℚ) : ℤ := if 0 ≤ x then ⌊x⌋ else ⌈x⌉

/-- PumpFunExecutor.calculate_dynamic_jito_tip (src/blockchain.py
lines 142-148): returns 0 when the configured base tip is falsy, otherwise
int(base * (1.0 + min(progress, 100.0) / 100.0)). -/
def calculate_dynamic_jito_tip (jito_tip_lamports : ℕ) (progress : ℚ) : ℤ :=
  if jito_tip_lamports = 0 then 0
  else pyInt ((jito_tip_lamports : ℚ) * (1 + min progress 100 / 100))

/-- The filter stages of should_snipe (src/bot.py lines 103-201), in source
order: blacklist check, analytics API stage, local database stage, local
chain-state fallback (progress and buyer density), holder-concentration
check, AI sentiment stage. -/
inductive FilterStage
  | blacklist
  | api
  | localDb
  | chainFallback
  | holderCheck
  | sentiment
deriving Repr, DecidableEq

/-- JSON body of a 200 response from the analytics API, with the defaults of
data.get applied (src/bot.py lines 121-124). -/
structure ApiTokenData where
  status : ℕ
  rug_risk : ℚ
  bonding_curve_progress : ℚ
deriving Repr, DecidableEq

/-- Row returned by get_creator_stats, with the defaults of
creator_data.get applied (src/bot.py lines 140-144). -/
structure CreatorStats where
  creator_score : ℚ
  graduated_count : ℕ
  rug_count : ℕ
deriving Repr, DecidableEq

/-- Row returned by get_token_analytics, with the defaults applied
(src/bot.py lines 154-162). -/
structure TokenAnalytics where
  rug_risk : ℚ
  market_cap_usd : ℚ
deriving Repr, DecidableEq

/-- Bonding curve state as consumed by the fallback stage: the value of
state.get_progress() (src/bot.py lines 170-173). -/
structure CurveState where
  progress : ℚ
  price_sol : ℚ
  complete : Bool
deriving Repr, DecidableEq

/-- Configuration fields of CONFIG consumed by should_snipe, with the
defaults of CONFIG.get resolved (src/bot.py lines 28-38, 107, 162, 184, 192). -/
structure FilterConfig where
  creator_blacklist : List String
  curve_progress_min : ℚ
  curve_progress_max : ℚ
  min_activity_density : ℕ
  min_market_cap_usd : ℚ
  min_ai_score : ℚ
deriving Repr, DecidableEq

/-- Values the awaited external calls of should_snipe would return.
A none models the corresponding call raising (timeout or error), which the
source catches and falls through on. dbError models the try block around the
database stage raising. ai_score is none when get_token_metadata returns
nothing or the sentiment call raises (both are skipped in the source). -/
structure FilterEnv where
  api : Option ApiTokenData
  dbError : Bool
  creator_stats : Option CreatorStats
  token_analytics : Option TokenAnalytics
  curve_state : Option CurveState
  unique_buyers : ℕ
  holder_ok : Bool
  ai_score : Option ℚ
deriving Repr, DecidableEq

/-- Stages 2.5 through 5 of should_snipe (src/bot.py lines 138-201): the
local database stage, the chain-state fallback, the holder-concentration
check and the sentiment stage, reached only when the API stage does not
settle the candidate. acc is the trace of stages already evaluated. -/
def should_snipe_rest (cfg : FilterConfig) (env : FilterEnv) (acc : List FilterStage) :
    Bool × List FilterStage :=
  let acc := acc ++ [FilterStage.localDb]
  let creatorBad : Bool :=
    match env.creator_stats with
    | some cs => decide (cs.creator_score < 30) || decide (0 < cs.rug_count)
    | none => false
  let tokenBad : Bool :=
    match env.token_analytics with
    | some td => decide (70 < td.rug_risk) || decide (td.market_cap_usd < cfg.min_market_cap_usd)
    | none => false
  if !env.dbError && (creatorBad || tokenBad) then (false, acc)
  else
    let acc := acc ++ [FilterStage.chainFallback]
    match env.curve_state with
    | none => (false, acc)
    | some st =>
      if ¬(cfg.curve_progress_min ≤ st.progress ∧ st.progress ≤ cfg.curve_progress_max) then
        (false, acc)
      else if env.unique_buyers < cfg.min_activity_density then (false, acc)
      else
        let acc := acc ++ [FilterStage.holderCheck]
        if env.holder_ok = false then (false, acc)
        else
          let acc := acc ++ [FilterStage.sentiment]
          match env.ai_score with
          | some sc => if sc < cfg.min_ai_score then (false, acc) else (true, acc)
          | none => (true, acc)

/-- should_snipe (src/bot.py lines 103-201), returning the verdict together
with the trace of stages evaluated. Missing mint or creator returns False
before any stage. The API stage returns early on a 200 response: rejection
when risk exceeds 65 or progress is outside the window, approval otherwise;
any other status or a raised request falls through to should_snipe_rest. -/
def should_snipe (cfg : FilterConfig) (mint creator : Option String) (env : FilterEnv) :
    Bool × List FilterStage :=
  match mint, creator with
  | some _, some cr =>
    if cr ∈ cfg.creator_blacklist then (false, [FilterStage.blacklist])
    else
      match env.api with
      | some d =>
        if d.status = 200 then
          if 65 < d.rug_risk then (false, [FilterStage.blacklist, FilterStage.api])
          else if ¬(cfg.curve_progress_min ≤ d.bonding_curve_progress ∧
              d.bonding_curve_progress ≤ cfg.curve_progress_max) then
            (false, [FilterStage.blacklist, FilterStage.api])
          else (true, [FilterStage.blacklist, FilterStage.api])
        else should_snipe_rest cfg env [FilterStage.blacklist, FilterStage.api]
      | none => should_snipe_rest cfg env [FilterStage.blacklist, FilterStage.api]
  | _, _ => (false, [])

/-- A candidate event dequeued by the sniper_main consumer loop
(src/bot.py lines 358-362), with the fields read via candidate.get; the
creator field is already the value of candidate.get creator or
candidate.get user. -/
structure Candidate where
  signature : Option String
  mint : Option String
  creator : Option String
deriving Repr, DecidableEq

/-- Observable actions of one iteration of the sniper_main consumer loop
(src/bot.py lines 358-432), in the order the source performs them. -/
inductive ConsumerAction
  | budgetCheck
  | configReload
  | extractData
  | filterEval (mint : String)
  | bitqueryEval (mint : String)
  | signalsEval (mint : String)
  | buy (mint : String)
  | spawnManage (mint : String)
deriving Repr, DecidableEq

/-- Values of the awaited calls made by one consumer iteration: the
extract_token_data result, the environment should_snipe reads, the verdicts
of should_snipe_bitquery and should_snipe_signals, and the signature a buy
submission would return (none models a failed buy). -/
structure ConsumerEnv where
  extractResult : Option (String × String)
  fenv : FilterEnv
  bitquery : Bool
  signals : Bool
  buySig : Option String
deriving Repr, DecidableEq

/-- The part of a consumer-loop iteration that runs once the budget check
passed (src/bot.py lines 368-431), as the trace of actions it performs.
Missing mint or creator triggers extract_token_data, and if that also fails
the candidate is skipped. A should_snipe approval runs the bitquery filter,
then the signals filter, then the buy; a buy that returns a signature spawns
a manage_position task for the mint. No deduplication or live-position
lookup appears anywhere in the source loop. -/
def consumerStepRest (cfg : FilterConfig) (c : Candidate) (env : ConsumerEnv) :
    List ConsumerAction :=
  let resolved : Option (String × String) :=
    match c.mint, c.creator with
    | some m, some cr => some (m, cr)
    | _, _ => env.extractResult
  let pre : List ConsumerAction :=
    [ConsumerAction.configReload] ++
      (match c.mint, c.creator with
       | some _, some _ => []
       | _, _ => [ConsumerAction.extractData])
  match resolved with
  | none => pre
  | some (m, cr) =>
    let acts := pre ++ [ConsumerAction.filterEval m]
    if (should_snipe cfg (some m) (some cr) env.fenv).1 then
      let acts := acts ++ [ConsumerAction.bitqueryEval m]
      if env.bitquery then
        let acts := acts ++ [ConsumerAction.signalsEval m]
        if env.signals then
          let acts := acts ++ [ConsumerAction.buy m]
          match env.buySig with
          | some _ => acts ++ [ConsumerAction.spawnManage m]
          | none => acts
        else acts
      else acts
    else acts

/-- One iteration of the consumer loop: the budget check is the first action
performed on every dequeued candidate; when it reports exceeded the
iteration ends there (src/bot.py lines 364-366), otherwise the rest of the
iteration follows. -/
def consumerStep (cfg : FilterConfig) (s : TradingStats) (c : Candidate)
    (env : ConsumerEnv) : List ConsumerAction :=
  ConsumerAction.budgetCheck ::
    (if s.is_budget_exceeded then [] else consumerStepRest cfg c env)

/-- The consumer loop over a list of dequeued candidates with the call
environments of their iterations. TradingStats is mutated only by
position-management tasks after a confirmed sell, so it stays constant
across the modelled iterations. -/
def consumerRun (cfg : FilterConfig) (s : TradingStats)
    (items : List (Candidate × ConsumerEnv)) : List ConsumerAction :=
  (items.map fun ce => consumerStep cfg s ce.1 ce.2).flatten

/-- Percentage profit relative to the entry price (src/bot.py line 224). -/
def profitPct (entry current : ℚ) : ℚ := (current - entry) / entry * 100

/-- Percentage drawdown from the running peak price (src/bot.py line 225). -/
def dropFromPeak (peak current : ℚ) : ℚ := (peak - current) / peak * 100

/-- Configuration fields of CONFIG consumed by manage_position, with the
CONFIG.get defaults resolved (src/bot.py lines 228, 233, 239, 262).
Each ladder entry is a pair of profit threshold pct and sell fraction. -/
structure MonConfig where
  take_profit_percent : ℚ
  trailing_stop_loss_percent : ℚ
  stop_loss_percent : ℚ
  ladder_exits : List (ℚ × ℚ)
deriving Repr, DecidableEq

/-- One successful poll of the monitoring loop of manage_position: the
current price, the creator token balance as read (none when the read raised
or returned no value, which the source ignores), and the curve completion
flag. -/
structure MonObs where
  price : ℚ
  creator_balance : Option ℚ
  complete : Bool
deriving Repr, DecidableEq

/-- The full-exit triggers of manage_position, in source order
(src/bot.py lines 227-258). -/
inductive ExitReason
  | takeProfit
  | trailingStop
  | stopLoss
  | devDump
  | curveComplete
deriving Repr, DecidableEq

/-- Events of one monitoring iteration. partialSell would be an
executor.sell_token call selling the given percentage of the position as the
partial exit of a ladder firing; the source never makes such a call inside
the monitoring loop — its ladder branch (src/bot.py lines 268-272) only logs
the partial sell and passes, with a comment deferring the call to
production — so the embedding of the reachable code never emits
partialSell. -/
inductive MonEvent
  | ladderFired (i : ℕ)
  | partialSell (sell_pct : ℚ)
  | exited (r : ExitReason)
deriving Repr, DecidableEq

/-- The mutable loop state of manage_position: peak_price (line 208) and the
ladder_index local initialised once through the locals() guard (line 263)
and kept across iterations. -/
structure MonState where
  peak_price : ℚ
  ladder_index : ℕ
deriving Repr, DecidableEq

/-- One iteration of the manage_position monitoring loop (src/bot.py
lines 211-274): update the peak, then in source order check take profit,
trailing stop (current profit above 10 and drawdown at least the trailing
percent), stop loss, creator dump, curve completion — each of which breaks
the loop — and finally the ladder, which consumes at most the entry at
ladder_index and never breaks. Returns the new state, the events of the
iteration, and whether the loop exited. -/
def monStep (cfg : MonConfig) (entry : ℚ) (s : MonState) (o : MonObs) :
    MonState × List MonEvent × Bool :=
  let peak := max s.peak_price o.price
  let profit := profitPct entry o.price
  let drop := dropFromPeak peak o.price
  if cfg.take_profit_percent ≤ profit then
    (⟨peak, s.ladder_index⟩, [MonEvent.exited ExitReason.takeProfit], true)
  else if 10 < profit ∧ cfg.trailing_stop_loss_percent ≤ drop then
    (⟨peak, s.ladder_index⟩, [MonEvent.exited ExitReason.trailingStop], true)
  else if profit ≤ -cfg.stop_loss_percent then
    (⟨peak, s.ladder_index⟩, [MonEvent.exited ExitReason.stopLoss], true)
  else if o.creator_balance = some 0 then
    (⟨peak, s.ladder_index⟩, [MonEvent.exited ExitReason.devDump], true)
  else if o.complete then
    (⟨peak, s.ladder_index⟩, [MonEvent.exited ExitReason.curveComplete], true)
  else
    match cfg.ladder_exits.get? s.ladder_index with
    | some t =>
      if t.1 ≤ profit then
        (⟨peak, s.ladder_index + 1⟩, [MonEvent.ladderFired s.ladder_index], false)
      else (⟨peak, s.ladder_index⟩, [], false)
    | none => (⟨peak, s.ladder_index⟩, [], false)

/-- The monitoring loop over a list of successful polls, stopping at the
first exit; each element of the result is the event list of one iteration
together with its exit flag. -/
def runMonitor (cfg : MonConfig) (entry : ℚ) :
    MonState → List MonObs → List (List MonEvent × Bool)
  | _, [] => []
  | s, o :: os =>
    match monStep cfg entry s o with
    | (s2, evs, ex) =>
      if ex then [(evs, true)] else (evs, false) :: runMonitor cfg entry s2 os

/-- The ladder indices fired over a monitoring run, in order. -/
def firedIndices (steps : List (List MonEvent × Bool)) : List ℕ :=
  steps.flatMap fun st => st.1.filterMap fun e =>
    match e with
    | MonEvent.ladderFired i => some i
    | _ => none

/-- Observable actions of PumpFunExecutor.simulate_and_send
(src/blockchain.py lines 376-429). pollStatus is the confirmation poll of
the retry loop at lines 405-429; that loop is unreachable in the source
because both branches of the preceding conditional return or raise, so the
embedding of the reachable code never emits pollStatus. -/
inductive SubmitAction
  | getBlockhash
  | sign
  | jitoSend
  | simulate
  | rpcSend
  | pollStatus
deriving Repr, DecidableEq

/-- Configuration read by simulate_and_send, with defaults resolved:
jito_tip_lamports (cfg.get, default 0) and allow_mev_fallback
(cfg.get, default True). -/
structure SubmitCfg where
  jito_tip_lamports : ℕ
  allow_mev_fallback : Bool
deriving Repr, DecidableEq

/-- Values of the awaited calls of simulate_and_send: the bundle id
send_jito_bundle would return (none models relay rejection or a raised
request), the error a simulation would report (none models a clean
simulation), and the outcome of send_transaction (error models a raised
exception). -/
structure SubmitEnv where
  jitoBundleResult : Option String
  simulateErr : Option String
  sendResult : Except String String
deriving Repr

/-- The direct-send fallback of simulate_and_send (src/blockchain.py
lines 394-403): when allow_mev_fallback is set, simulate and abort on a
simulation error, otherwise perform one send_transaction call and return its
outcome; when fallback is disabled, raise the anti-MEV enforcement error
without any send. The retry loop at lines 405-429 is unreachable (the
branches above it return or raise) and is therefore not part of the
reachable behaviour embedded here. -/
def directFallback (cfg : SubmitCfg) (env : SubmitEnv) (acts : List SubmitAction) :
    Except String String × List SubmitAction :=
  if cfg.allow_mev_fallback then
    match env.simulateErr with
    | some e => (Except.error ("Simulation failed: " ++ e), acts ++ [SubmitAction.simulate])
    | none => (env.sendResult, acts ++ [SubmitAction.simulate, SubmitAction.rpcSend])
  else
    (Except.error "Anti-MEV Enforcement: Jito bundle failed and fallback is disabled.", acts)

/-- PumpFunExecutor.simulate_and_send (src/blockchain.py lines 376-403):
fetch a blockhash and sign, resolve the effective tip (tip_override when
given, else the configured base), route through the Jito relay when the tip
is positive and return its bundle id when the relay accepts, otherwise fall
through to directFallback. -/
def simulate_and_send (cfg : SubmitCfg) (tip_override : Option ℕ) (env : SubmitEnv) :
    Except String String × List SubmitAction :=
  let tip := tip_override.getD cfg.jito_tip_lamports
  let pre := [SubmitAction.getBlockhash, SubmitAction.sign]
  if 0 < tip then
    match env.jitoBundleResult with
    | some bundle_id => (Except.ok bundle_id, pre ++ [SubmitAction.jitoSend])
    | none => directFallback cfg env (pre ++ [SubmitAction.jitoSend])
  else directFallback cfg env pre

/-- An event of the Pump.fun websocket stream as queued by
listen_new_tokens (src/bot.py lines 95-101). -/
structure TokenEvent where
  signature : Option String
  mint : Option String
  user : Option String
deriving Repr, DecidableEq, Inhabited

/-- The pusher callback of listen_new_tokens (src/bot.py lines 97-99):
queue.put_nowait on the unbounded asyncio.Queue created at line 351 appends
the event at the tail and never blocks, fails or drops. -/
def pusher (q : List TokenEvent) (e : TokenEvent) : List TokenEvent := q ++ [e]

/-- The ingest side over a sequence of delivered events: fold pusher. -/
def ingestRun (q : List TokenEvent) : List TokenEvent → List TokenEvent
  | [] => q
  | e :: es => ingestRun (pusher q e) es

/-- Concrete evaluation fixture: a permissive filter configuration (empty
blacklist, progress window 10 to 60, density 2, market cap 5000, AI 40). -/
def cfgEval : FilterConfig := ⟨[], 10, 60, 2, 5000, 40⟩

/-- Concrete evaluation fixture: a filter environment whose analytics API
responds 200 with risk 50 and progress 30. -/
def fenvApprove : FilterEnv := ⟨some ⟨200, 50, 30⟩, false, none, none, none, 0, true, none⟩

/-- Concrete evaluation fixture: a consumer environment in which every later
filter passes and the buy returns a signature. -/
def envApprove : ConsumerEnv := ⟨none, fenvApprove, true, true, some "BUYSIG"⟩

/-- Concrete evaluation fixture: a fully populated candidate. -/
def candMint : Candidate := ⟨some "SIG", some "MINT", some "CRE"⟩

/-- Concrete evaluation fixture: capital 1 SOL, limit 2 percent, no fees yet. -/
def statsFresh : TradingStats := ⟨1, 0, 1/50⟩

/-- Concrete evaluation fixture: capital 1 SOL, limit 2 percent, 0.02 SOL of
fees already recorded. -/
def statsSpent : TradingStats := ⟨1, 20000000, 1/50⟩

/-!
Theorems. Claims C1 through C10 follow, each preceded by helper lemmas where
needed.
-/

theorem tip_arg_nonneg (b : ℕ) (r : ℚ) (hr : 0 ≤ r) :
    0 ≤ (b : ℚ) * (1 + min r 100 / 100) := by
  have h0 : (0:ℚ) ≤ min r 100 := le_min hr (by norm_num)
  have h1 : (0:ℚ) ≤ 1 + min r 100 / 100 := by linarith
  exact mul_nonneg (by positivity) h1

/-- C9: the dynamic entry tip is monotone in on-chain progress, equals the
configured base at progress 0, equals twice the base once progress is capped
at 100, and below the cap equals the floor of the linear interpolation
base * (100 + progress) / 100. -/
theorem dynamic_tip_monotone_linear (b : ℕ) (p q : ℚ) (hp : 0 ≤ p) (hpq : p ≤ q) :
    calculate_dynamic_jito_tip b p ≤ calculate_dynamic_jito_tip b q
    ∧ calculate_dynamic_jito_tip b 0 = b
    ∧ (100 ≤ q → calculate_dynamic_jito_tip b q = 2 * b)
    ∧ (p ≤ 100 → calculate_dynamic_jito_tip b p = ⌊(b : ℚ) * (100 + p) / 100⌋) := by
  have hq : (0:ℚ) ≤ q := le_trans hp hpq
  by_cases hb : b = 0
  · subst hb
    refine ⟨le_refl _, by simp [calculate_dynamic_jito_tip], ?_, ?_⟩
    · intro _; simp [calculate_dynamic_jito_tip]
    · intro _; simp [calculate_dynamic_jito_tip]
  · refine ⟨?_, ?_, ?_, ?_⟩
    · unfold calculate_dynamic_jito_tip
      rw [if_neg hb, if_neg hb, pyInt, if_pos (tip_arg_nonneg b p hp),
        pyInt, if_pos (tip_arg_nonneg b q hq)]
      apply Int.floor_le_floor
      have hmin : min p 100 ≤ min q 100 := min_le_min hpq (le_refl _)
      have hbpos : (0:ℚ) ≤ (b:ℚ) := by positivity
      apply mul_le_mul_of_nonneg_left _ hbpos
      linarith
    · unfold calculate_dynamic_jito_tip
      rw [if_neg hb, pyInt, if_pos (tip_arg_nonneg b 0 (le_refl 0))]
      have hm : min (0:ℚ) 100 = 0 := min_eq_left (by norm_num)
      rw [hm]
      norm_num
    · intro h100
      unfold calculate_dynamic_jito_tip
      rw [if_neg hb, pyInt, if_pos (tip_arg_nonneg b q hq)]
      have hm : min q 100 = 100 := min_eq_right h100
      rw [hm]
      have : (b : ℚ) * (1 + 100 / 100) = ((2 * b : ℕ) : ℚ) := by push_cast; ring
      rw [this, Int.floor_natCast]
      push_cast
      ring
    · intro hple
      unfold calculate_dynamic_jito_tip
      rw [if_neg hb, pyInt, if_pos (tip_arg_nonneg b p hp)]
      have hm : min p 100 = p := min_eq_left hple
      rw [hm]
      congr 1
      ring

/-- Witness for C9 at base 100, progress 30 and 150. -/
theorem dynamic_tip_monotone_linear_witness :
    calculate_dynamic_jito_tip 100 30 ≤ calculate_dynamic_jito_tip 100 150
    ∧ calculate_dynamic_jito_tip 100 0 = 100
    ∧ calculate_dynamic_jito_tip 100 150 = 2 * 100
    ∧ calculate_dynamic_jito_tip 100 30 = ⌊(100 : ℚ) * (100 + 30) / 100⌋ := by
  obtain ⟨h1, h2, h3, h4⟩ :=
    dynamic_tip_monotone_linear 100 30 150 (by norm_num) (by norm_num)
  exact ⟨h1, h2, h3 (by norm_num), h4 (by norm_num)⟩

/-- C10: a 200 analytics response with risk at most 65 and progress inside the
configured window makes should_snipe return True with only the blacklist and
API stages evaluated: the local database stage, the chain-state fallback, the
holder-concentration check and the sentiment stage are all skipped. -/
theorem api_approval_short_circuits (cfg : FilterConfig) (m cr : String) (env : FilterEnv)
    (d : ApiTokenData) (hbl : cr ∉ cfg.creator_blacklist) (happ : env.api = some d)
    (hst : d.status = 200) (hrisk : d.rug_risk ≤ 65)
    (hlo : cfg.curve_progress_min ≤ d.bonding_curve_progress)
    (hhi : d.bonding_curve_progress ≤ cfg.curve_progress_max) :
    should_snipe cfg (some m) (some cr) env = (true, [FilterStage.blacklist, FilterStage.api])
    ∧ FilterStage.localDb ∉ (should_snipe cfg (some m) (some cr) env).2
    ∧ FilterStage.chainFallback ∉ (should_snipe cfg (some m) (some cr) env).2
    ∧ FilterStage.holderCheck ∉ (should_snipe cfg (some m) (some cr) env).2
    ∧ FilterStage.sentiment ∉ (should_snipe cfg (some m) (some cr) env).2 := by
  have heq : should_snipe cfg (some m) (some cr) env
      = (true, [FilterStage.blacklist, FilterStage.api]) := by
    simp only [should_snipe, happ]
    rw [if_neg hbl, if_pos hst, if_neg (not_lt.mpr hrisk),
      if_neg (not_not_intro ⟨hlo, hhi⟩)]
  refine ⟨heq, ?_, ?_, ?_, ?_⟩ <;> rw [heq] <;> simp

/-- C2: when the effective tip is non-zero and the bundle relay accepts the
submission, simulate_and_send returns the bundle id and the direct-send path
send_transaction is never invoked for that transaction. -/
theorem relay_accept_no_double_send (cfg : SubmitCfg) (t : Option ℕ) (env : SubmitEnv)
    (bid : String) (htip : t.getD cfg.jito_tip_lamports ≠ 0)
    (hacc : env.jitoBundleResult = some bid) :
    (simulate_and_send cfg t env).1 = Except.ok bid
    ∧ SubmitAction.rpcSend ∉ (simulate_and_send cfg t env).2 := by
  have hpos : 0 < t.getD cfg.jito_tip_lamports := Nat.pos_of_ne_zero htip
  unfold simulate_and_send
  rw [if_pos hpos, hacc]
  exact ⟨rfl, by simp⟩

/-- Witness for C2: tip 5000 configured, relay accepts with id BID. -/
theorem relay_accept_no_double_send_witness :
    (simulate_and_send ⟨5000, true⟩ none ⟨some "BID", none, Except.ok "SIG"⟩).1
      = Except.ok "BID"
    ∧ SubmitAction.rpcSend
      ∉ (simulate_and_send ⟨5000, true⟩ none ⟨some "BID", none, Except.ok "SIG"⟩).2 :=
  relay_accept_no_double_send ⟨5000, true⟩ none ⟨some "BID", none, Except.ok "SIG"⟩
    "BID" (by decide) rfl

/-- C8: with a positive tip, a failed relay submission and direct fallback
disabled by configuration, simulate_and_send raises the anti-MEV enforcement
error after exactly one relay attempt, with no retry, no simulation and no
direct RPC send. -/
theorem fallback_disabled_is_fatal (cfg : SubmitCfg) (t : Option ℕ) (env : SubmitEnv)
    (htip : 0 < t.getD cfg.jito_tip_lamports)
    (hrej : env.jitoBundleResult = none)
    (hfb : cfg.allow_mev_fallback = false) :
    (simulate_and_send cfg t env).1 =
      Except.error "Anti-MEV Enforcement: Jito bundle failed and fallback is disabled."
    ∧ SubmitAction.rpcSend ∉ (simulate_and_send cfg t env).2
    ∧ SubmitAction.simulate ∉ (simulate_and_send cfg t env).2
    ∧ (simulate_and_send cfg t env).2.count SubmitAction.jitoSend = 1 := by
  unfold simulate_and_send
  rw [if_pos htip, hrej]
  unfold directFallback
  rw [hfb]
  refine ⟨rfl, by simp, by simp, by simp⟩

/-- Witness for C8: tip 5000 configured, relay rejects, fallback disabled. -/
theorem fallback_disabled_is_fatal_witness :
    (simulate_and_send ⟨5000, false⟩ none ⟨none, none, Except.ok "SIG"⟩).1 =
      Except.error "Anti-MEV Enforcement: Jito bundle failed and fallback is disabled."
    ∧ SubmitAction.rpcSend
      ∉ (simulate_and_send ⟨5000, false⟩ none ⟨none, none, Except.ok "SIG"⟩).2
    ∧ SubmitAction.simulate
      ∉ (simulate_and_send ⟨5000, false⟩ none ⟨none, none, Except.ok "SIG"⟩).2
    ∧ (simulate_and_send ⟨5000, false⟩ none
        ⟨none, none, Except.ok "SIG"⟩).2.count SubmitAction.jitoSend = 1 :=
  fallback_disabled_is_fatal ⟨5000, false⟩ none ⟨none, none, Except.ok "SIG"⟩
    (by decide) rfl rfl

/-- C3 (evidence of the code bug): with no tip configured, fallback allowed,
a clean simulation and a direct send that fails, simulate_and_send performs
exactly one direct-send attempt, never polls confirmation status, and
surfaces that single error. The configured-maximum retry loop with backoff
and confirmation polling exists only as unreachable code after the
return/raise at src/blockchain.py lines 401-403, referencing an undefined
max_retries. -/
theorem direct_send_single_attempt :
    (simulate_and_send ⟨0, true⟩ none ⟨none, none, Except.error "connection refused"⟩).1
      = Except.error "connection refused"
    ∧ (simulate_and_send ⟨0, true⟩ none ⟨none, none, Except.error "connection refused"⟩).2
      = [SubmitAction.getBlockhash, SubmitAction.sign, SubmitAction.simulate,
        SubmitAction.rpcSend]
    ∧ (simulate_and_send ⟨0, true⟩ none
        ⟨none, none, Except.error "connection refused"⟩).2.count SubmitAction.rpcSend = 1
    ∧ (simulate_and_send ⟨0, true⟩ none
        ⟨none, none, Except.error "connection refused"⟩).2.count SubmitAction.pollStatus = 0 :=
  ⟨rfl, rfl, rfl, rfl⟩

/-- C7 counterexample: the ingest queue is the unbounded asyncio.Queue of
src/bot.py line 351 and pusher always appends, so there is no capacity at
which pushing onto a full queue drops the newest item and leaves the queue
unchanged. -/
theorem ingest_queue_not_bounded :
    ¬ ∃ cap : ℕ, ∀ (q : List TokenEvent) (e : TokenEvent),
        cap ≤ q.length → pusher q e = q := by
  rintro ⟨cap, h⟩
  have heq := h (List.replicate cap default) default (by simp)
  have hlen := congrArg List.length heq
  simp [pusher] at hlen

/-- C7 amended: listen_new_tokens pushes every event onto the unbounded FIFO
queue with put_nowait; pushes never block, drop or fail, no drop counter
exists, and a sequence of deliveries is appended in arrival order with no
event lost at any queue length. -/
theorem ingest_fifo_no_loss (q es : List TokenEvent) :
    ingestRun q es = q ++ es ∧ (ingestRun q es).length = q.length + es.length := by
  have h : ∀ (es q : List TokenEvent), ingestRun q es = q ++ es := by
    intro es
    induction es with
    | nil => intro q; simp [ingestRun]
    | cons e es ih => intro q; simp [ingestRun, pusher, ih]
  exact ⟨h es q, by rw [h es q]; simp⟩

theorem consumerStep_approved (cfg : FilterConfig) (s : TradingStats) (c : Candidate)
    (env : ConsumerEnv) (m cr sig : String)
    (hbud : s.is_budget_exceeded = false) (hm : c.mint = some m) (hcr : c.creator = some cr)
    (hsnipe : (should_snipe cfg (some m) (some cr) env.fenv).1 = true)
    (hbq : env.bitquery = true) (hsg : env.signals = true) (hbuy : env.buySig = some sig) :
    consumerStep cfg s c env =
      [ConsumerAction.budgetCheck, ConsumerAction.configReload,
        ConsumerAction.filterEval m, ConsumerAction.bitqueryEval m,
        ConsumerAction.signalsEval m, ConsumerAction.buy m,
        ConsumerAction.spawnManage m] := by
  unfold consumerStep consumerStepRest
  rw [hbud, hm, hcr, hbq, hsg, hbuy]
  simp [hsnipe]

theorem statsFresh_not_exceeded : statsFresh.is_budget_exceeded = false := by
  simp only [statsFresh, TradingStats.is_budget_exceeded, decide_eq_false_iff_not]
  norm_num

theorem statsSpent_exceeded : statsSpent.is_budget_exceeded = true := by
  simp only [statsSpent, TradingStats.is_budget_exceeded, decide_eq_true_eq]
  norm_num

theorem snipe_approves_eval :
    (should_snipe cfgEval (some "MINT") (some "CRE") fenvApprove).1 = true := by
  norm_num [should_snipe, cfgEval, fenvApprove]

theorem consumerStep_approved_eval :
    consumerStep cfgEval statsFresh candMint envApprove =
      [ConsumerAction.budgetCheck, ConsumerAction.configReload,
        ConsumerAction.filterEval "MINT", ConsumerAction.bitqueryEval "MINT",
        ConsumerAction.signalsEval "MINT", ConsumerAction.buy "MINT",
        ConsumerAction.spawnManage "MINT"] :=
  consumerStep_approved cfgEval statsFresh candMint envApprove "MINT" "CRE" "BUYSIG"
    statsFresh_not_exceeded rfl rfl snipe_approves_eval rfl rfl rfl

/-- C1: the budget check fails closed: it is the first action of every
consumer iteration, an exceeded budget ends the iteration with no filter
evaluation, every approved entry is preceded by checkBudget returning true,
and once add_fee pushes cumulative fee spend to at least limit_pct times
initial_capital the next checkBudget call returns false. -/
theorem budget_check_fails_closed (cfg : FilterConfig) (s : TradingStats) (c : Candidate)
    (env : ConsumerEnv) (f : ℕ) :
    (consumerStep cfg s c env).head? = some ConsumerAction.budgetCheck
    ∧ (s.is_budget_exceeded = true → consumerStep cfg s c env = [ConsumerAction.budgetCheck])
    ∧ (∀ m, ConsumerAction.buy m ∈ consumerStep cfg s c env → checkBudget s = true)
    ∧ (s.initial_capital * s.limit_pct ≤ ((s.add_fee f).total_fees_lamports : ℚ) / 1000000000
        → checkBudget (s.add_fee f) = false) := by
  refine ⟨rfl, ?_, ?_, ?_⟩
  · intro hb
    unfold consumerStep
    rw [hb]
    rfl
  · intro m hm
    by_cases hb : s.is_budget_exceeded = true
    · unfold consumerStep at hm
      rw [hb] at hm
      simp at hm
    · rw [Bool.not_eq_true] at hb
      simp [checkBudget, hb]
  · intro hle
    have hex : (s.add_fee f).is_budget_exceeded = true := by
      unfold TradingStats.is_budget_exceeded
      rw [decide_eq_true_eq]
      exact hle
    simp [checkBudget, hex]

/-- Witness for C1: on fresh stats the budget check heads the iteration and
checkBudget is true before the approved entry; on spent stats the iteration
is cut short; a 0.02 SOL fee on fresh stats flips checkBudget to false. -/
theorem budget_check_fails_closed_witness :
    (consumerStep cfgEval statsFresh candMint envApprove).head?
      = some ConsumerAction.budgetCheck
    ∧ consumerStep cfgEval statsSpent candMint envApprove = [ConsumerAction.budgetCheck]
    ∧ checkBudget statsFresh = true
    ∧ checkBudget (statsFresh.add_fee 20000000) = false := by
  have h1 := budget_check_fails_closed cfgEval statsFresh candMint envApprove 20000000
  have h2 := budget_check_fails_closed cfgEval statsSpent candMint envApprove 0
  refine ⟨h1.1, h2.2.1 statsSpent_exceeded, ?_, ?_⟩
  · refine h1.2.2.1 "MINT" ?_
    rw [consumerStep_approved_eval]
    simp
  · refine h1.2.2.2 ?_
    simp only [TradingStats.add_fee, statsFresh]
    norm_num

/-- C4 amended: the consumer loop has no per-mint deduplication and no
live-position check: every delivery of a candidate that passes the budget
check and every filter, and whose buy returns a signature, spawns a
manage_position task, so n such deliveries of one mint spawn n concurrent
position-management tasks for that mint. -/
theorem approved_redeliveries_spawn_repeatedly (cfg : FilterConfig) (s : TradingStats)
    (c : Candidate) (env : ConsumerEnv) (m cr sig : String) (n : ℕ)
    (hbud : s.is_budget_exceeded = false) (hm : c.mint = some m) (hcr : c.creator = some cr)
    (hsnipe : (should_snipe cfg (some m) (some cr) env.fenv).1 = true)
    (hbq : env.bitquery = true) (hsg : env.signals = true) (hbuy : env.buySig = some sig) :
    (consumerRun cfg s (List.replicate n (c, env))).count (ConsumerAction.spawnManage m)
      = n := by
  have hstep := consumerStep_approved cfg s c env m cr sig hbud hm hcr hsnipe hbq hsg hbuy
  induction n with
  | zero => simp [consumerRun]
  | succ k ih =>
    rw [List.replicate_succ]
    unfold consumerRun at ih ⊢
    rw [List.map_cons, List.flatten_cons, List.count_append, ih, hstep]
    simp [List.count_cons]
    omega

/-- Witness for C4 amended: three approved deliveries of MINT spawn three
position-management tasks. -/
theorem approved_redeliveries_spawn_repeatedly_witness :
    (consumerRun cfgEval statsFresh
        (List.replicate 3 (candMint, envApprove))).count (ConsumerAction.spawnManage "MINT")
      = 3 :=
  approved_redeliveries_spawn_repeatedly cfgEval statsFresh candMint envApprove
    "MINT" "CRE" "BUYSIG" 3 statsFresh_not_exceeded rfl rfl snipe_approves_eval rfl rfl rfl

/-- C4 counterexample: delivering the same fully approved mint twice spawns a
second concurrent position-management task for that mint while the first is
still open — the source loop neither re-checks for a live position nor
deduplicates, so at most one live Position per mint is not enforced. -/
theorem duplicate_mint_spawns_second_manager :
    (consumerRun cfgEval statsFresh
        [(candMint, envApprove), (candMint, envApprove)]).count
      (ConsumerAction.spawnManage "MINT") = 2
    ∧ ¬ ((consumerRun cfgEval statsFresh
        [(candMint, envApprove), (candMint, envApprove)]).count
      (ConsumerAction.spawnManage "MINT") ≤ 1) := by
  have h : (consumerRun cfgEval statsFresh
      [(candMint, envApprove), (candMint, envApprove)]).count
      (ConsumerAction.spawnManage "MINT") = 2 := by
    unfold consumerRun
    simp [consumerStep_approved_eval, List.count_append, List.count_cons]
  exact ⟨h, by rw [h]; norm_num⟩

/-- Witness for C10 at the concrete approving fixture. -/
theorem api_approval_short_circuits_witness :
    should_snipe cfgEval (some "MINT") (some "CRE") fenvApprove
      = (true, [FilterStage.blacklist, FilterStage.api])
    ∧ FilterStage.localDb ∉ (should_snipe cfgEval (some "MINT") (some "CRE") fenvApprove).2
    ∧ FilterStage.chainFallback
      ∉ (should_snipe cfgEval (some "MINT") (some "CRE") fenvApprove).2
    ∧ FilterStage.holderCheck
      ∉ (should_snipe cfgEval (some "MINT") (some "CRE") fenvApprove).2
    ∧ FilterStage.sentiment
      ∉ (should_snipe cfgEval (some "MINT") (some "CRE") fenvApprove).2 := by
  refine api_approval_short_circuits cfgEval "MINT" "CRE" fenvApprove ⟨200, 50, 30⟩
    ?_ rfl rfl ?_ ?_ ?_
  · simp [cfgEval]
  · norm_num
  · norm_num [cfgEval]
  · norm_num [cfgEval]

/-- C5 amended: the trailing stop of manage_position is gated on the current
profit of the poll, not on profit having at some point exceeded the arming
threshold: a monitoring iteration exits with trailingStop exactly when take
profit has not fired, the CURRENT profit exceeds 10 percent, and drawdown
from the running peak is at least the configured trailing percent. -/
theorem trailing_stop_gated_on_current_profit (cfg : MonConfig) (entry : ℚ)
    (s : MonState) (o : MonObs) :
    (monStep cfg entry s o).2.1 = [MonEvent.exited ExitReason.trailingStop]
      ↔ (profitPct entry o.price < cfg.take_profit_percent
         ∧ 10 < profitPct entry o.price
         ∧ cfg.trailing_stop_loss_percent
           ≤ dropFromPeak (max s.peak_price o.price) o.price) := by
  simp only [monStep]
  split_ifs with h1 h2 h3 h4 h5
  · exact ⟨fun hEq => by simp at hEq, fun hRHS => absurd h1 (not_le.mpr hRHS.1)⟩
  · exact ⟨fun _ => ⟨not_le.mp h1, h2.1, h2.2⟩, fun _ => rfl⟩
  · exact ⟨fun hEq => by simp at hEq, fun hRHS => absurd ⟨hRHS.2.1, hRHS.2.2⟩ h2⟩
  · exact ⟨fun hEq => by simp at hEq, fun hRHS => absurd ⟨hRHS.2.1, hRHS.2.2⟩ h2⟩
  · exact ⟨fun hEq => by simp at hEq, fun hRHS => absurd ⟨hRHS.2.1, hRHS.2.2⟩ h2⟩
  · rcases hget : cfg.ladder_exits.get? s.ladder_index with _ | t
    · exact ⟨fun hEq => by simp at hEq, fun hRHS => absurd ⟨hRHS.2.1, hRHS.2.2⟩ h2⟩
    · dsimp only
      split_ifs with h6
      · exact ⟨fun hEq => by simp at hEq, fun hRHS => absurd ⟨hRHS.2.1, hRHS.2.2⟩ h2⟩
      · exact ⟨fun hEq => by simp at hEq, fun hRHS => absurd ⟨hRHS.2.1, hRHS.2.2⟩ h2⟩

/-- Witness for C5 amended: entry 1, running peak 1.3, current price 1.2 —
current profit 20 percent and drawdown 100/13 percent trigger the exit. -/
theorem trailing_stop_gated_witness :
    (monStep ⟨50, 5, 20, []⟩ 1 ⟨13/10, 0⟩ ⟨6/5, none, false⟩).2.1
      = [MonEvent.exited ExitReason.trailingStop] := by
  refine (trailing_stop_gated_on_current_profit ⟨50, 5, 20, []⟩ 1 ⟨13/10, 0⟩
    ⟨6/5, none, false⟩).mpr ⟨?_, ?_, ?_⟩
  · norm_num [profitPct]
  · norm_num [profitPct]
  · have hmax : max (13/10 : ℚ) (6/5) = 13/10 := max_eq_left (by norm_num)
    show (5:ℚ) ≤ dropFromPeak (max (13/10 : ℚ) (6/5)) (6/5)
    rw [hmax]
    norm_num [dropFromPeak]

theorem runMonitor_cons (cfg : MonConfig) (entry : ℚ) (s : MonState) (o : MonObs)
    (os : List MonObs) (s2 : MonState) (evs : List MonEvent) (ex : Bool)
    (h : monStep cfg entry s o = (s2, evs, ex)) :
    runMonitor cfg entry s (o :: os)
      = if ex then [(evs, true)] else (evs, false) :: runMonitor cfg entry s2 os := by
  rw [runMonitor, h]

/-- C5 counterexample: entry 1.8e-6; the price peaks at 2.0e-6 (profit 100/9
percent, above the 10 percent arming threshold) and then falls to 1.85e-6
(drawdown 7.5 percent, at least the 5 percent trailing stop). The claim
mandates a trailing-stop exit at the second poll; the source, which gates
the trailing stop on the CURRENT profit of the poll exceeding 10 percent,
exits on neither poll. -/
theorem trailing_stop_not_latched :
    runMonitor ⟨50, 5, 20, [(25, 50)]⟩ (9/5000000) ⟨9/5000000, 0⟩
        [⟨1/500000, none, false⟩, ⟨37/20000000, none, false⟩]
      = [([], false), ([], false)]
    ∧ 10 < profitPct (9/5000000) (1/500000)
    ∧ (5:ℚ) ≤ dropFromPeak (1/500000) (37/20000000) := by
  have hp1 : profitPct (9/5000000) (1/500000) = 100/9 := by
    norm_num [profitPct]
  have hp2 : profitPct (9/5000000) (37/20000000) = 25/9 := by
    norm_num [profitPct]
  have hd2 : dropFromPeak (1/500000) (37/20000000) = 15/2 := by
    norm_num [dropFromPeak]
  have hmax1 : max ((9:ℚ)/5000000) (1/500000) = 1/500000 := max_eq_right (by norm_num)
  have hmax2 : max ((1:ℚ)/500000) (37/20000000) = 1/500000 := max_eq_left (by norm_num)
  have h1 : monStep ⟨50, 5, 20, [(25, 50)]⟩ (9/5000000) ⟨9/5000000, 0⟩
      ⟨1/500000, none, false⟩ = (⟨1/500000, 0⟩, [], false) := by
    simp only [monStep, hmax1, hp1]
    norm_num [dropFromPeak]
    all_goals simp
  have h2 : monStep ⟨50, 5, 20, [(25, 50)]⟩ (9/5000000) ⟨1/500000, 0⟩
      ⟨37/20000000, none, false⟩ = (⟨1/500000, 0⟩, [], false) := by
    simp only [monStep, hmax2, hp2]
    norm_num [dropFromPeak]
    all_goals simp
  refine ⟨?_, by rw [hp1]; norm_num, by rw [hd2]; norm_num⟩
  rw [runMonitor_cons _ _ _ _ _ _ _ _ h1, if_neg Bool.false_ne_true,
    runMonitor_cons _ _ _ _ _ _ _ _ h2, if_neg Bool.false_ne_true]
  rfl

theorem monStep_cases (cfg : MonConfig) (entry : ℚ) (s : MonState) (o : MonObs)
    (s2 : MonState) (evs : List MonEvent) (ex : Bool)
    (h : monStep cfg entry s o = (s2, evs, ex)) :
    (ex = true ∧ ∃ r, evs = [MonEvent.exited r])
    ∨ (ex = false ∧ evs = [] ∧ s2.ladder_index = s.ladder_index)
    ∨ (ex = false ∧ evs = [MonEvent.ladderFired s.ladder_index]
        ∧ s2.ladder_index = s.ladder_index + 1) := by
  revert h
  simp only [monStep]
  split_ifs with h1 h2 h3 h4 h5
  · intro h
    rw [Prod.mk.injEq, Prod.mk.injEq] at h
    exact Or.inl ⟨h.2.2.symm, ExitReason.takeProfit, h.2.1.symm⟩
  · intro h
    rw [Prod.mk.injEq, Prod.mk.injEq] at h
    exact Or.inl ⟨h.2.2.symm, ExitReason.trailingStop, h.2.1.symm⟩
  · intro h
    rw [Prod.mk.injEq, Prod.mk.injEq] at h
    exact Or.inl ⟨h.2.2.symm, ExitReason.stopLoss, h.2.1.symm⟩
  · intro h
    rw [Prod.mk.injEq, Prod.mk.injEq] at h
    exact Or.inl ⟨h.2.2.symm, ExitReason.devDump, h.2.1.symm⟩
  · intro h
    rw [Prod.mk.injEq, Prod.mk.injEq] at h
    exact Or.inl ⟨h.2.2.symm, ExitReason.curveComplete, h.2.1.symm⟩
  · rcases hget : cfg.ladder_exits.get? s.ladder_index with _ | t
    · intro h
      dsimp only at h
      rw [Prod.mk.injEq, Prod.mk.injEq] at h
      refine Or.inr (Or.inl ⟨h.2.2.symm, h.2.1.symm, ?_⟩)
      rw [← h.1]
    · dsimp only
      split_ifs with h6
      · intro h
        rw [Prod.mk.injEq, Prod.mk.injEq] at h
        refine Or.inr (Or.inr ⟨h.2.2.symm, h.2.1.symm, ?_⟩)
        rw [← h.1]
      · intro h
        rw [Prod.mk.injEq, Prod.mk.injEq] at h
        refine Or.inr (Or.inl ⟨h.2.2.symm, h.2.1.symm, ?_⟩)
        rw [← h.1]

theorem firedIndices_cons (st : List MonEvent × Bool) (steps : List (List MonEvent × Bool)) :
    firedIndices (st :: steps)
      = (st.1.filterMap fun e => match e with
          | MonEvent.ladderFired i => some i
          | _ => none) ++ firedIndices steps := by
  simp [firedIndices]

theorem runMonitor_fired_range (cfg : MonConfig) (entry : ℚ) :
    ∀ (obss : List MonObs) (s : MonState), ∃ k,
      firedIndices (runMonitor cfg entry s obss) = List.range' s.ladder_index k := by
  intro obss
  induction obss with
  | nil =>
    intro s
    exact ⟨0, by simp [runMonitor, firedIndices]⟩
  | cons o os ih =>
    intro s
    rcases hstep : monStep cfg entry s o with ⟨s2, evs, ex⟩
    rcases monStep_cases cfg entry s o s2 evs ex hstep with
      ⟨hex, r, hevs⟩ | ⟨hex, hevs, hidx⟩ | ⟨hex, hevs, hidx⟩
    · refine ⟨0, ?_⟩
      rw [runMonitor_cons cfg entry s o os s2 evs ex hstep, hex, if_pos rfl, hevs]
      simp [firedIndices]
    · obtain ⟨k, hk⟩ := ih s2
      refine ⟨k, ?_⟩
      rw [runMonitor_cons cfg entry s o os s2 evs ex hstep, hex,
        if_neg Bool.false_ne_true, firedIndices_cons, hevs, hk, hidx]
      simp
    · obtain ⟨k, hk⟩ := ih s2
      refine ⟨k + 1, ?_⟩
      rw [runMonitor_cons cfg entry s o os s2 evs ex hstep, hex,
        if_neg Bool.false_ne_true, firedIndices_cons, hevs, hk, hidx]
      simp [List.range'_succ]

theorem runMonitor_exit_no_ladder (cfg : MonConfig) (entry : ℚ) :
    ∀ (obss : List MonObs) (s : MonState) (evs : List MonEvent) (ex : Bool),
      (evs, ex) ∈ runMonitor cfg entry s obss →
      (∃ i, MonEvent.ladderFired i ∈ evs) → ex = false := by
  intro obss
  induction obss with
  | nil =>
    intro s evs ex hmem _
    simp [runMonitor] at hmem
  | cons o os ih =>
    intro s evs ex hmem hfired
    rcases hstep : monStep cfg entry s o with ⟨s2, evs2, ex2⟩
    rw [runMonitor_cons cfg entry s o os s2 evs2 ex2 hstep] at hmem
    rcases monStep_cases cfg entry s o s2 evs2 ex2 hstep with
      ⟨hex, r, hevs⟩ | ⟨hex, hevs, _⟩ | ⟨hex, hevs, _⟩
    · rw [hex, if_pos rfl] at hmem
      simp only [List.mem_singleton, Prod.mk.injEq] at hmem
      obtain ⟨i, hi⟩ := hfired
      rw [hmem.1, hevs] at hi
      simp at hi
    · rw [hex, if_neg Bool.false_ne_true] at hmem
      rcases List.mem_cons.mp hmem with heq | htail
      · cases heq; rfl
      · exact ih s2 evs ex htail hfired
    · rw [hex, if_neg Bool.false_ne_true] at hmem
      rcases List.mem_cons.mp hmem with heq | htail
      · cases heq; rfl
      · exact ih s2 evs ex htail hfired
theorem runMonitor_no_partial_sell (cfg : MonConfig) (entry : ℚ) :
    ∀ (obss : List MonObs) (s : MonState) (evs : List MonEvent) (ex : Bool),
      (evs, ex) ∈ runMonitor cfg entry s obss → ∀ q, MonEvent.partialSell q ∉ evs := by
  intro obss
  induction obss with
  | nil =>
    intro s evs ex hmem
    simp [runMonitor] at hmem
  | cons o os ih =>
    intro s evs ex hmem q
    rcases hstep : monStep cfg entry s o with ⟨s2, evs2, ex2⟩
    rw [runMonitor_cons cfg entry s o os s2 evs2 ex2 hstep] at hmem
    rcases monStep_cases cfg entry s o s2 evs2 ex2 hstep with
      ⟨hex, r, hevs⟩ | ⟨hex, hevs, _⟩ | ⟨hex, hevs, _⟩
    · rw [hex, if_pos rfl] at hmem
      simp only [List.mem_singleton, Prod.mk.injEq] at hmem
      rw [hmem.1, hevs]
      simp
    · rw [hex, if_neg Bool.false_ne_true] at hmem
      rcases List.mem_cons.mp hmem with heq | htail
      · cases heq
        rw [hevs]
        simp
      · exact ih s2 evs ex htail q
    · rw [hex, if_neg Bool.false_ne_true] at hmem
      rcases List.mem_cons.mp hmem with heq | htail
      · cases heq
        rw [hevs]
        simp
      · exact ih s2 evs ex htail q

theorem monStep_ladder0_eval :
    monStep ⟨50, 5, 20, [(10, 50), (20, 25)]⟩ 1 ⟨1, 0⟩ ⟨23/20, none, false⟩
      = (⟨23/20, 1⟩, [MonEvent.ladderFired 0], false) := by
  have hm1 : max (1:ℚ) (23/20) = 23/20 := max_eq_right (by norm_num)
  have hq1 : profitPct 1 (23/20) = 15 := by norm_num [profitPct]
  simp only [monStep, hm1, hq1]
  norm_num [dropFromPeak]
  all_goals simp

theorem monStep_ladder1_eval :
    monStep ⟨50, 5, 20, [(10, 50), (20, 25)]⟩ 1 ⟨23/20, 1⟩ ⟨5/4, none, false⟩
      = (⟨5/4, 2⟩, [MonEvent.ladderFired 1], false) := by
  have hm2 : max ((23:ℚ)/20) (5/4) = 5/4 := max_eq_right (by norm_num)
  have hq2 : profitPct 1 (5/4) = 25 := by norm_num [profitPct]
  simp only [monStep, hm2, hq2]
  norm_num [dropFromPeak]
  all_goals simp

theorem runMonitor_ladders_eval :
    runMonitor ⟨50, 5, 20, [(10, 50), (20, 25)]⟩ 1 ⟨1, 0⟩
        [⟨23/20, none, false⟩, ⟨5/4, none, false⟩]
      = [([MonEvent.ladderFired 0], false), ([MonEvent.ladderFired 1], false)] := by
  rw [runMonitor_cons _ _ _ _ _ _ _ _ monStep_ladder0_eval, if_neg Bool.false_ne_true,
    runMonitor_cons _ _ _ _ _ _ _ _ monStep_ladder1_eval, if_neg Bool.false_ne_true]
  rfl

/-- C6 counterexample: with ladders at 10 and 20 percent and prices rising
through both thresholds, ladder entries 0 and 1 both fire, yet no monitoring
iteration performs a partial-sell call: the ladder branch of the source
(src/bot.py lines 268-272) only logs Partial Sell Executed and passes, so a
ladder firing performs no partial exit and position size never changes. -/
theorem ladder_fire_performs_no_partial_exit :
    runMonitor ⟨50, 5, 20, [(10, 50), (20, 25)]⟩ 1 ⟨1, 0⟩
        [⟨23/20, none, false⟩, ⟨5/4, none, false⟩]
      = [([MonEvent.ladderFired 0], false), ([MonEvent.ladderFired 1], false)]
    ∧ (∀ evs ex, (evs, ex) ∈ runMonitor ⟨50, 5, 20, [(10, 50), (20, 25)]⟩ 1 ⟨1, 0⟩
          [⟨23/20, none, false⟩, ⟨5/4, none, false⟩] →
        ∀ q, MonEvent.partialSell q ∉ evs) := by
  refine ⟨runMonitor_ladders_eval, ?_⟩
  intro evs ex hmem q
  rw [runMonitor_ladders_eval] at hmem
  rcases List.mem_cons.mp hmem with heq | h2
  · cases heq
    simp
  · rcases List.mem_cons.mp h2 with heq | h3
    · cases heq
      simp
    · simp at h3

/-- C6 amended: over any monitoring run, the ladder indices fired are
strictly ascending and therefore each ladder entry is consumed at most once
no matter how profit oscillates; an iteration that fires a ladder entry
never exits the monitoring loop; and no iteration performs a partial sell —
a ladder firing only logs and consumes the entry, leaving the position size
unchanged. -/
theorem ladder_consumed_in_order_without_partial_exit (cfg : MonConfig) (entry : ℚ)
    (obss : List MonObs) :
    (firedIndices (runMonitor cfg entry ⟨entry, 0⟩ obss)).Sorted (· < ·)
    ∧ (firedIndices (runMonitor cfg entry ⟨entry, 0⟩ obss)).Nodup
    ∧ (∀ evs ex, (evs, ex) ∈ runMonitor cfg entry ⟨entry, 0⟩ obss →
        (∃ i, MonEvent.ladderFired i ∈ evs) → ex = false)
    ∧ (∀ evs ex, (evs, ex) ∈ runMonitor cfg entry ⟨entry, 0⟩ obss →
        ∀ q, MonEvent.partialSell q ∉ evs) := by
  obtain ⟨k, hk⟩ := runMonitor_fired_range cfg entry obss ⟨entry, 0⟩
  refine ⟨?_, ?_,
    fun evs ex hmem hf => runMonitor_exit_no_ladder cfg entry obss ⟨entry, 0⟩ evs ex hmem hf,
    fun evs ex hmem q => runMonitor_no_partial_sell cfg entry obss ⟨entry, 0⟩ evs ex hmem q⟩
  · rw [hk]
    exact List.pairwise_lt_range' _ _
  · rw [hk]
    exact List.nodup_range' _ _

/-- Witness for C6 amended: ladders at 10 and 20 percent with prices rising
through both thresholds fire entries 0 and 1 in order, once each; the firing
iteration does not exit and contains no partial-sell call. -/
theorem ladder_consumed_in_order_witness :
    (firedIndices (runMonitor ⟨50, 5, 20, [(10, 50), (20, 25)]⟩ 1 ⟨1, 0⟩
        [⟨23/20, none, false⟩, ⟨5/4, none, false⟩])).Sorted (· < ·)
    ∧ (firedIndices (runMonitor ⟨50, 5, 20, [(10, 50), (20, 25)]⟩ 1 ⟨1, 0⟩
        [⟨23/20, none, false⟩, ⟨5/4, none, false⟩])).Nodup
    ∧ false = false
    ∧ MonEvent.partialSell 50 ∉ [MonEvent.ladderFired 0] := by
  have hmem : ([MonEvent.ladderFired 0], false)
      ∈ runMonitor ⟨50, 5, 20, [(10, 50), (20, 25)]⟩ 1 ⟨1, 0⟩
        [⟨23/20, none, false⟩, ⟨5/4, none, false⟩] := by
    rw [runMonitor_ladders_eval]
    simp
  have h := ladder_consumed_in_order_without_partial_exit
    ⟨50, 5, 20, [(10, 50), (20, 25)]⟩ 1 [⟨23/20, none, false⟩, ⟨5/4, none, false⟩]
  exact ⟨h.1, h.2.1, h.2.2.1 [MonEvent.ladderFired 0] false hmem ⟨0, by simp⟩,
    h.2.2.2 [MonEvent.ladderFired 0] false hmem 50⟩
